import Mathlib

/-!
Shallow embedding of the Liam media-library filename-inference and
metadata-reconciliation core:

* `src/main/handlers/folderHandler.ts` — filename tokenizer, season/part
  extractors, series-name extractor, identifier generator, directory scan;
* `src/main/handlers/anilistHandler.ts` — provider candidate selection;
* `src/main/main.ts` — cache-validity check, cache-hit merge, and the
  scan-and-fetch store pipeline.

Strings are modelled as `List Char` (the repository's data is ASCII);
JavaScript regular-expression matching is modelled by explicit
leftmost-match scanners that mirror each concrete pattern.  Filesystem
paths are lists of path components; filesystem and provider I/O are
modelled as explicit oracles (`Fs`, fetch oracles) so that the control
flow of the source, including its try/catch structure, is represented
by total functions and `Except`.
-/

/-- JS `\s` whitespace class (the ASCII part; the repository's names are ASCII). -/
def isSpaceC (c : Char) : Bool :=
  c = ' ' || c = '\t' || c = '\n' || c = '\r' || c = Char.ofNat 11 || c = Char.ofNat 12

/-- JS `\w` word character class `[A-Za-z0-9_]`, used by `\b`. -/
def isWordC (c : Char) : Bool := c.isAlphanum || c = '_'

/-- Numeric value of a digit run, as `parseInt(run, 10)`. -/
def digitsVal (l : List Char) : Nat := l.foldl (fun a c => a * 10 + (c.toNat - 48)) 0

/-- `\b` before a word character: the previous character (if any) is not a word character. -/
def boundaryB : Option Char → Bool
  | none => true
  | some p => !(isWordC p)

/-- `\b` after a word character: the rest is empty or starts with a non-word character. -/
def tailNonWord : List Char → Bool
  | [] => true
  | c :: _ => !(isWordC c)

/-- Case-insensitive literal consumption: remainder after the pattern, if it is a prility. -/
def dropCIC : List Char → List Char → Option (List Char)
  | [], l => some l
  | _ :: _, [] => none
  | p :: ps, c :: cs => if p.toLower = c.toLower then dropCIC ps cs else none

def dropCI (pat : String) (l : List Char) : Option (List Char) := dropCIC pat.data l

/-- Leftmost-match scan: try the position matcher `f` at every suffix, left to right. -/
def scanListO {α : Type} (f : List Char → Option α) : List Char → Option α
  | [] => none
  | c :: rest =>
    match f (c :: rest) with
    | some r => some r
    | none => scanListO f rest

/-- Leftmost-match scan carrying the previous character (needed for `\b`). -/
def scanPrevO {α : Type} (f : Option Char → List Char → Option α) :
    Option Char → List Char → Option α
  | _, [] => none
  | prev, c :: rest =>
    match f prev (c :: rest) with
    | some r => some r
    | none => scanPrevO f (some c) rest

/-- Index of the last `'.'` in the name, if any (for Node `path.extname`). -/
def lastDotIdx (l : List Char) : Option Nat :=
  (List.range l.length).foldl (fun acc i => if l.get? i = some '.' then some i else acc) none

/-- Node `path.extname` on a plain file name: from the last dot to the end,
unless there is no dot or the only dot is the leading character. -/
def extChars (l : List Char) : List Char :=
  match lastDotIdx l with
  | none => []
  | some 0 => []
  | some i => l.drop i

/-- `getBaseName` (folderHandler.ts): the file name with `extname` stripped. -/
def baseChars (l : List Char) : List Char :=
  match lastDotIdx l with
  | none => l
  | some 0 => l
  | some i => l.take i

/-- `\bS(\d+)E(\d+)\b` (case-insensitive) tried at one position. -/
def sEAt (prev : Option Char) (l : List Char) : Option (Nat × Nat) :=
  if !(boundaryB prev) then none else
  match l with
  | [] => none
  | c :: r1 =>
    if c = 'S' || c = 's' then
      let sp1 := r1.span Char.isDigit
      if sp1.1.isEmpty then none else
      match sp1.2 with
      | [] => none
      | e :: r3 =>
        if e = 'E' || e = 'e' then
          let sp2 := r3.span Char.isDigit
          if sp2.1.isEmpty then none
          else if tailNonWord sp2.2 then some (digitsVal sp1.1, digitsVal sp2.1) else none
        else none
    else none

/-- First (leftmost) match of `\bS(\d+)E(\d+)\b` in the name. -/
def findSE (l : List Char) : Option (Nat × Nat) := scanPrevO sEAt none l

/-- `S(\d+)E(\d+)` (case-insensitive) without word boundaries, at one position.
This is the pattern exactly as the specification sentence writes it, used to
state the claim; the source pattern is `sEAt`. -/
def sEPlainAt (l : List Char) : Option (Nat × Nat) :=
  match l with
  | [] => none
  | c :: r1 =>
    if c = 'S' || c = 's' then
      let sp1 := r1.span Char.isDigit
      if sp1.1.isEmpty then none else
      match sp1.2 with
      | [] => none
      | e :: r3 =>
        if e = 'E' || e = 'e' then
          let sp2 := r3.span Char.isDigit
          if sp2.1.isEmpty then none
          else some (digitsVal sp1.1, digitsVal sp2.1)
        else none
    else none

/-- Leftmost `S(\d+)E(\d+)` match without word boundaries (the claim's reading). -/
def plainFindSE (l : List Char) : Option (Nat × Nat) := scanListO sEPlainAt l

/-- `Episode\s*(\d+)\.(\d+)` (case-insensitive) at one position. -/
def epDecAt (l : List Char) : Option (Nat × Nat) :=
  match dropCI "episode" l with
  | none => none
  | some r1 =>
    let r2 := r1.dropWhile isSpaceC
    let sp1 := r2.span Char.isDigit
    if sp1.1.isEmpty then none else
    match sp1.2 with
    | '.' :: r4 =>
      let sp2 := r4.span Char.isDigit
      if sp2.1.isEmpty then none else some (digitsVal sp1.1, digitsVal sp2.1)
    | _ => none

/-- `Episode\s*(\d+)` (case-insensitive) at one position. -/
def pEpisodeAt (l : List Char) : Option Nat :=
  match dropCI "episode" l with
  | none => none
  | some r1 =>
    let r2 := r1.dropWhile isSpaceC
    let sp := r2.span Char.isDigit
    if sp.1.isEmpty then none else some (digitsVal sp.1)

/-- `Ep\.?\s*(\d+)` (case-insensitive) at one position. -/
def pEpAt (l : List Char) : Option Nat :=
  match dropCI "ep" l with
  | none => none
  | some r1 =>
    let r1' := match r1 with
      | '.' :: t => t
      | _ => r1
    let r2 := r1'.dropWhile isSpaceC
    let sp := r2.span Char.isDigit
    if sp.1.isEmpty then none else some (digitsVal sp.1)

/-- `E(\d{2,})` (case-insensitive) at one position. -/
def pE2At (l : List Char) : Option Nat :=
  match l with
  | [] => none
  | c :: r =>
    if c = 'E' || c = 'e' then
      let sp := r.span Char.isDigit
      if 2 ≤ sp.1.length then some (digitsVal sp.1) else none
    else none

/-- `\s-\s*(\d+)(?:\s|$)` at one position. -/
def pDashAt (l : List Char) : Option Nat :=
  match l with
  | c :: '-' :: r =>
    if isSpaceC c then
      let r2 := r.dropWhile isSpaceC
      let sp := r2.span Char.isDigit
      if sp.1.isEmpty then none else
      match sp.2 with
      | [] => some (digitsVal sp.1)
      | c2 :: _ => if isSpaceC c2 then some (digitsVal sp.1) else none
    else none
  | _ => none

/-- `\[(\d+)\]` at one position. -/
def pBracketAt (l : List Char) : Option Nat :=
  match l with
  | '[' :: r =>
    let sp := r.span Char.isDigit
    if sp.1.isEmpty then none else
    match sp.2 with
    | ']' :: _ => some (digitsVal sp.1)
    | _ => none
  | _ => none

/-- `\s(\d{1,3})(?:\s|$)` at one position. -/
def pLastNumAt (l : List Char) : Option Nat :=
  match l with
  | [] => none
  | c :: r =>
    if isSpaceC c then
      let sp := r.span Char.isDigit
      if sp.1.isEmpty || 3 < sp.1.length then none else
      match sp.2 with
      | [] => some (digitsVal sp.1)
      | c2 :: _ => if isSpaceC c2 then some (digitsVal sp.1) else none
    else none

/-- The tokenizer's ordered fallback pattern list, first full-string match wins. -/
def patternsEpisode (l : List Char) : Option Nat :=
  (scanListO pEpisodeAt l) <|> (scanListO pEpAt l) <|> (scanListO pE2At l) <|>
  (scanListO pDashAt l) <|> (scanListO pBracketAt l) <|> (scanListO pLastNumAt l)

/-- Maximal digit runs of the name, in order (`baseName.match(/\d+/g)`). -/
def digitRunsGo (cur : List Char) : List Char → List (List Char)
  | [] => if cur.isEmpty then [] else [cur.reverse]
  | c :: r =>
    if c.isDigit then digitRunsGo (c :: cur) r
    else if cur.isEmpty then digitRunsGo [] r
    else cur.reverse :: digitRunsGo [] r

def digitRunsC (l : List Char) : List (List Char) := digitRunsGo [] l

/-- Keep a number that is not year-like (`num < 1900 || num > 2099`). -/
def notYearB (n : Nat) : Bool := decide (n < 1900) || decide (2099 < n)

/-- Final digit-run fallback of `extractSeasonAndEpisode`. -/
def fallbackEpisode (l : List Char) : Nat :=
  let keep := ((digitRunsC l).map digitsVal).filter notYearB
  match keep.getLast? with
  | some n => n
  | none => 1

/-- `extractSeasonAndEpisode` (folderHandler.ts, lines 40–107).  The JS number
for a decimal episode `whole + decimal / 10` is modelled as a rational. -/
def extractSeasonAndEpisode (filename : String) : Option Nat × ℚ :=
  let b := baseChars filename.data
  match findSE b with
  | some se => (some se.1, (se.2 : ℚ))
  | none =>
    match scanListO epDecAt b with
    | some wd => (none, (wd.1 : ℚ) + (wd.2 : ℚ) / 10)
    | none =>
      match patternsEpisode b with
      | some e => (none, (e : ℚ))
      | none => (none, (fallbackEpisode b : ℚ))

/-- `true` when none of the tokenizer's patterns before the digit-run fallback
match the extension-stripped base name. -/
def noPatternMatch (filename : String) : Bool :=
  let b := baseChars filename.data
  (findSE b).isNone && (scanListO epDecAt b).isNone && (patternsEpisode b).isNone

/-- `Season\s*(\d+)` (case-insensitive) at one position. -/
def seasonWordAt (l : List Char) : Option Nat :=
  match dropCI "season" l with
  | none => none
  | some r1 =>
    let r2 := r1.dropWhile isSpaceC
    let sp := r2.span Char.isDigit
    if sp.1.isEmpty then none else some (digitsVal sp.1)

/-- `\bS(\d+)\b` (case-insensitive) at one position. -/
def sTokenAt (prev : Option Char) (l : List Char) : Option Nat :=
  if !(boundaryB prev) then none else
  match l with
  | [] => none
  | c :: r =>
    if c = 'S' || c = 's' then
      let sp := r.span Char.isDigit
      if sp.1.isEmpty then none
      else if tailNonWord sp.2 then some (digitsVal sp.1) else none
    else none

/-- `extractSeasonNumber` (folderHandler.ts, lines 109–127): `Season N` first,
then `\bS(\d+)\b`; the third listed pattern duplicates the first.  Returns
`none` when nothing matches, so a bare numeric folder name is not a season. -/
def extractSeasonNumber (folderName : String) : Option Nat :=
  match scanListO seasonWordAt folderName.data with
  | some n => some n
  | none => scanPrevO sTokenAt none folderName.data

/-- `Part\s*(\d+)` (case-insensitive) at one position. -/
def partWordAt (l : List Char) : Option Nat :=
  match dropCI "part" l with
  | none => none
  | some r1 =>
    let r2 := r1.dropWhile isSpaceC
    let sp := r2.span Char.isDigit
    if sp.1.isEmpty then none else some (digitsVal sp.1)

/-- `\bP(\d+)\b` (case-insensitive) at one position. -/
def pTokenAt (prev : Option Char) (l : List Char) : Option Nat :=
  if !(boundaryB prev) then none else
  match l with
  | [] => none
  | c :: r =>
    if c = 'P' || c = 'p' then
      let sp := r.span Char.isDigit
      if sp.1.isEmpty then none
      else if tailNonWord sp.2 then some (digitsVal sp.1) else none
    else none

/-- `extractPartNumber` (folderHandler.ts, lines 129–145). -/
def extractPartNumber (folderName : String) : Option Nat :=
  match scanListO partWordAt folderName.data with
  | some n => some n
  | none => scanPrevO pTokenAt none folderName.data

/-- Runs of JS whitespace collapsed to a single space (`replace(/\s+/g, ' ')`). -/
def collapseWs : List Char → List Char
  | [] => []
  | [c] => [if isSpaceC c then ' ' else c]
  | c1 :: c2 :: rest =>
    if isSpaceC c1 && isSpaceC c2 then collapseWs (c2 :: rest)
    else (if isSpaceC c1 then ' ' else c1) :: collapseWs (c2 :: rest)

/-- Runs of JS whitespace collapsed to a single underscore (`replace(/\s+/g, '_')`). -/
def collapseWsU : List Char → List Char
  | [] => []
  | [c] => [if isSpaceC c then '_' else c]
  | c1 :: c2 :: rest =>
    if isSpaceC c1 && isSpaceC c2 then collapseWsU (c2 :: rest)
    else (if isSpaceC c1 then '_' else c1) :: collapseWsU (c2 :: rest)

/-- Strip leading and trailing whitespace (JS `trim`, ASCII part). -/
def trimC (l : List Char) : List Char :=
  ((l.dropWhile isSpaceC).reverse.dropWhile isSpaceC).reverse

/-- JS `n.toString().padStart(2, '0')`. -/
def pad2 (n : Nat) : String := if n < 10 then "0" ++ toString n else toString n

/-- Base identifier of `generateSeriesId` (folderHandler.ts, lines 246–258):
from the series name when it has length ≥ 2, otherwise from the folder name. -/
def generateBaseId (seriesName folderName : String) : String :=
  if 2 ≤ seriesName.length then
    String.mk (((collapseWsU (seriesName.data.filter
      (fun c => c.isAlphanum || isSpaceC c))).map Char.toLower).take 50)
  else
    String.mk (folderName.data.map (fun c => if c.isAlphanum then c.toLower else '_'))

/-- `generateSeriesId` (folderHandler.ts, lines 246–269): part suffix takes
priority over season suffix. -/
def generateSeriesId (seriesName folderName : String)
    (seasonNumber partNumber : Option Nat) : String :=
  let baseId := generateBaseId seriesName folderName
  match partNumber with
  | some p => baseId ++ "_part" ++ pad2 p
  | none =>
    match seasonNumber with
    | some s => baseId ++ "_s" ++ pad2 s
    | none => baseId

/-- Truncating replace for the `....*$` patterns of the series-name extractor:
everything from the leftmost position where the matcher holds is removed. -/
def truncGo (f : Option Char → List Char → Bool) : Option Char → List Char → List Char
  | _, [] => []
  | prev, c :: r => if f prev (c :: r) then [] else c :: truncGo f (some c) r

def truncAt (f : Option Char → List Char → Bool) (l : List Char) : List Char :=
  truncGo f none l

/-- Global replace: scan left to right, on a match emit `rep` and continue
after the consumed text, otherwise keep one character and move on. -/
def replGlobal (f : List Char → Option (List Char)) (rep : List Char) :
    Nat → List Char → List Char
  | 0, l => l
  | _ + 1, [] => []
  | fuel + 1, c :: r =>
    match f (c :: r) with
    | some rest => rep ++ replGlobal f rep fuel rest
    | none => c :: replGlobal f rep fuel r

/-- `\s*\bS\d+E\d+(\.\d+)?\b.*$` (case-insensitive) holds at a position.  The
optional `(\.\d+)?` group never affects matchability: when it is taken the
trailing `\b` is checked after its digits, and when it is dropped the next
character is `'.'`, which is itself a non-word character. -/
def m1At (prev : Option Char) (l : List Char) : Bool :=
  let sp := l.span isSpaceC
  ((!sp.1.isEmpty) || boundaryB prev) &&
  (match sp.2 with
   | c :: r1 =>
     (c = 'S' || c = 's') &&
     (let d1 := r1.span Char.isDigit
      (!d1.1.isEmpty) &&
      (match d1.2 with
       | e :: r3 =>
         (e = 'E' || e = 'e') &&
         (let d2 := r3.span Char.isDigit
          (!d2.1.isEmpty) && tailNonWord d2.2)
       | [] => false))
   | [] => false)

/-- `\s*\bE\d+(\.\d+)?\b.*$` (case-insensitive) holds at a position. -/
def m2At (prev : Option Char) (l : List Char) : Bool :=
  let sp := l.span isSpaceC
  ((!sp.1.isEmpty) || boundaryB prev) &&
  (match sp.2 with
   | c :: r1 =>
     (c = 'E' || c = 'e') &&
     (let d := r1.span Char.isDigit
      (!d.1.isEmpty) && tailNonWord d.2)
   | [] => false)

/-- `\s*\bPart\s*\d+\b.*$` (case-insensitive) holds at a position. -/
def m3At (prev : Option Char) (l : List Char) : Bool :=
  let sp := l.span isSpaceC
  ((!sp.1.isEmpty) || boundaryB prev) &&
  (match dropCI "part" sp.2 with
   | some r1 =>
     let r2 := r1.dropWhile isSpaceC
     let d := r2.span Char.isDigit
     (!d.1.isEmpty) && tailNonWord d.2
   | none => false)

/-- `\s*\bSeason\s*\d+\b.*$` (case-insensitive) holds at a position. -/
def m4At (prev : Option Char) (l : List Char) : Bool :=
  let sp := l.span isSpaceC
  ((!sp.1.isEmpty) || boundaryB prev) &&
  (match dropCI "season" sp.2 with
   | some r1 =>
     let r2 := r1.dropWhile isSpaceC
     let d := r2.span Char.isDigit
     (!d.1.isEmpty) && tailNonWord d.2
   | none => false)

/-- `\s*Episode\s*\d+(\.\d+)?[ab]?\s*.*$` (case-insensitive) holds at a
position; the optional tail parts always succeed. -/
def m5At (_prev : Option Char) (l : List Char) : Bool :=
  match dropCI "episode" (l.dropWhile isSpaceC) with
  | some r1 =>
    let r2 := r1.dropWhile isSpaceC
    !(r2.span Char.isDigit).1.isEmpty
  | none => false

/-- `\s*Ep\.?\s*\d+(\.\d+)?[ab]?\s*.*$` (case-insensitive) holds at a position. -/
def m6At (_prev : Option Char) (l : List Char) : Bool :=
  match dropCI "ep" (l.dropWhile isSpaceC) with
  | some r1 =>
    let r1' := match r1 with
      | '.' :: t => t
      | _ => r1
    let r2 := r1'.dropWhile isSpaceC
    !(r2.span Char.isDigit).1.isEmpty
  | none => false

/-- `\s*\[\d+(\.\d+)?[ab]?\].*$` (case-sensitive) holds at a position. -/
def m7At (_prev : Option Char) (l : List Char) : Bool :=
  match l.dropWhile isSpaceC with
  | '[' :: r1 =>
    let d := r1.span Char.isDigit
    if d.1.isEmpty then false else
    let r2 := match d.2 with
      | '.' :: t =>
        let d2 := t.span Char.isDigit
        if d2.1.isEmpty then d.2 else d2.2
      | _ => d.2
    let r3 := match r2 with
      | 'a' :: t => t
      | 'b' :: t => t
      | _ => r2
    match r3 with
    | ']' :: _ => true
    | _ => false
  | _ => false

/-- `\s*-\s*\d{1,4}(?:\.\d+)?[ab]?(?:\s|$).*$` holds at a position.  `\d{1,4}`
with the following context can only match a complete digit run of length ≤ 4. -/
def m8At (_prev : Option Char) (l : List Char) : Bool :=
  match l.dropWhile isSpaceC with
  | '-' :: r1 =>
    let r2 := r1.dropWhile isSpaceC
    let d := r2.span Char.isDigit
    if d.1.isEmpty || 4 < d.1.length then false else
    let r3 := match d.2 with
      | '.' :: t =>
        let d2 := t.span Char.isDigit
        if d2.1.isEmpty then d.2 else d2.2
      | _ => d.2
    let r4 := match r3 with
      | 'a' :: t => t
      | 'b' :: t => t
      | _ => r3
    match r4 with
    | [] => true
    | c :: _ => isSpaceC c
  | _ => false

/-- `\s+\d{1,3}(?!\d)(?:\s|$)` tried at a position: on success, the remainder
after the consumed match (the trailing whitespace is consumed). -/
def standaloneNumAt (l : List Char) : Option (List Char) :=
  let sp := l.span isSpaceC
  if sp.1.isEmpty then none else
  let d := sp.2.span Char.isDigit
  if d.1.isEmpty || 3 < d.1.length then none else
  match d.2 with
  | [] => some []
  | c :: rest => if isSpaceC c then some rest else none

/-- Ordered alternation of case-insensitive literals. -/
def matchAltCI (alts : List String) (l : List Char) : Option (List Char) :=
  match alts with
  | [] => none
  | a :: rest =>
    match dropCI a l with
    | some r => some r
    | none => matchAltCI rest l

/-- `\s*\[(?:1080|720|480|360)p?\]\s*` tried at a position. -/
def qualityAt (l : List Char) : Option (List Char) :=
  match l.dropWhile isSpaceC with
  | '[' :: r1 =>
    match matchAltCI ["1080", "720", "480", "360"] r1 with
    | some r2 =>
      let r3 := match r2 with
        | c :: t => if c.toLower = 'p' then t else r2
        | [] => r2
      (match r3 with
       | ']' :: r4 => some (r4.dropWhile isSpaceC)
       | _ => none)
    | none => none
  | _ => none

/-- `\s*\[(?:HD|SD|FHD|UHD)\]?\s*` (case-insensitive) tried at a position;
note the closing bracket is optional in the source pattern. -/
def hdTagAt (l : List Char) : Option (List Char) :=
  match l.dropWhile isSpaceC with
  | '[' :: r1 =>
    match matchAltCI ["HD", "SD", "FHD", "UHD"] r1 with
    | some r2 =>
      let r3 := match r2 with
        | ']' :: t => t
        | _ => r2
      some (r3.dropWhile isSpaceC)
    | none => none
  | _ => none

/-- `\s*\(\d{4}\)\s*$` holds at a position (anchored at the end). -/
def yearEndAt (l : List Char) : Bool :=
  match l.dropWhile isSpaceC with
  | '(' :: r1 =>
    let d := r1.span Char.isDigit
    d.1.length = 4 &&
    (match d.2 with
     | ')' :: r2 => (r2.dropWhile isSpaceC).isEmpty
     | _ => false)
  | _ => false

/-- `\s*\([^)]*\)\s*` tried at a position: the group stops at the first `)`. -/
def parenAt (l : List Char) : Option (List Char) :=
  match l.dropWhile isSpaceC with
  | '(' :: r1 =>
    let sp := r1.span (fun c => !(c = ')'))
    match sp.2 with
    | ')' :: r2 => some (r2.dropWhile isSpaceC)
    | _ => none
  | _ => none

/-- One cleaned base name of `extractSeriesNameFromFilenames`
(folderHandler.ts, lines 153–177): the ordered replace chain. -/
def cleanedNameOf (filename : String) : List Char :=
  let s0 := baseChars filename.data
  let s1 := truncAt m1At s0
  let s2 := truncAt m2At s1
  let s3 := truncAt m3At s2
  let s4 := truncAt m4At s3
  let s5 := truncAt m5At s4
  let s6 := truncAt m6At s5
  let s7 := truncAt m7At s6
  let s8 := truncAt m8At s7
  let s9 := replGlobal standaloneNumAt [] s8.length s8
  let s10 := replGlobal qualityAt [' '] s9.length s9
  let s11 := replGlobal hdTagAt [' '] s10.length s10
  let s12 := truncAt (fun _ l => yearEndAt l) s11
  let s13 := replGlobal parenAt [' '] s12.length s12
  let s14 := s13.map (fun c => if c = '.' then ' ' else c)
  let s15 := s14.map (fun c => if c = '_' then ' ' else c)
  trimC (collapseWs s15)

/-- Stable insertion keeping `x` after every element `y` with `le y x`
(models the stability of JS `Array.prototype.sort`). -/
def insSorted {α : Type} (le : α → α → Bool) (x : α) : List α → List α
  | [] => [x]
  | y :: r => if le y x then y :: insSorted le x r else x :: y :: r

def stableSortBy {α : Type} (le : α → α → Bool) (l : List α) : List α :=
  l.foldl (fun acc x => insSorted le x acc) []

/-- Longest common character-wise pref of two names. -/
def lcp2 : List Char → List Char → List Char
  | a :: as, b :: bs => if a = b then a :: lcp2 as bs else []
  | _, _ => []

/-- Strip trailing dashes, underscores and whitespace (`replace(/[-_\s]+$/,'')`). -/
def dropTrailingJunk (l : List Char) : List Char :=
  (l.reverse.dropWhile (fun c => c = '-' || c = '_' || isSpaceC c)).reverse

/-- JS `split(/\s+/)` with empty pieces removed. -/
def splitWs (l : List Char) : List (List Char) :=
  (l.foldr
    (fun c acc =>
      if isSpaceC c then [] :: acc
      else match acc with
        | h :: t => (c :: h) :: t
        | [] => [[c]])
    [[]]).filter (fun w => !w.isEmpty)

/-- Common word run: words of the reference name kept while every name has
the same word at the same index. -/
def commonWordsGo (allW : List (List (List Char))) : List (List Char) → Nat → List (List Char)
  | [], _ => []
  | w :: rest, i =>
    if allW.all (fun ws => ws.get? i == some w) then w :: commonWordsGo allW rest (i + 1)
    else []

/-- `\s*-\s*$` holds at a position. -/
def dashEndAt (l : List Char) : Bool :=
  match l.dropWhile isSpaceC with
  | '-' :: r2 => (r2.dropWhile isSpaceC).isEmpty
  | _ => false

/-- `\s+\d+\s*$` holds at a position. -/
def numEndAt (l : List Char) : Bool :=
  let sp := l.span isSpaceC
  (!sp.1.isEmpty) &&
  (let d := sp.2.span Char.isDigit
   (!d.1.isEmpty) && (d.2.dropWhile isSpaceC).isEmpty)

inductive MediaKind
  | series
  | movie
deriving DecidableEq

/-- `VideoFile` (folderHandler.ts, lines 7–16); paths are component lists and
the JS episode number is modelled as a rational. -/
structure VideoFile where
  filename : String
  filePath : List String
  title : String
  episodeNumber : ℚ
  seasonNumber : Option Nat
  subtitlePath : Option (List String)
  subtitlePaths : List (List String)
  parentFolder : String
deriving DecidableEq

/-- `ScannedMedia` (folderHandler.ts, lines 18–26). -/
structure ScannedMedia where
  id : String
  name : String
  type : MediaKind
  folderPath : List String
  files : List VideoFile
  seasonNumber : Option Nat
  partNumber : Option Nat
deriving DecidableEq

/-- `extractSeriesNameFromFilenames` (folderHandler.ts, lines 147–244). -/
def extractSeriesNameFromFilenames (videoFiles : List VideoFile) : String :=
  match videoFiles with
  | [] => ""
  | _ =>
    let cleanedNames := videoFiles.map (fun v => cleanedNameOf v.filename)
    match cleanedNames with
    | [single] => String.mk single
    | _ =>
      let sorted := stableSortBy (fun a b => Nat.ble a.length b.length) cleanedNames
      let shortest := sorted.headD []
      let cp := sorted.foldl lcp2 shortest
      let res1 := trimC (dropTrailingJunk cp)
      let res2 :=
        if res1.length < 3 then
          trimC (List.intercalate [' '] (commonWordsGo (sorted.map splitWs) (splitWs shortest) 0))
        else res1
      let res3 := if res2.length < 2 then shortest else res2
      let res4 := trimC (truncAt (fun _ l => numEndAt l) (truncAt (fun _ l => dashEndAt l) res3))
      String.mk res4

/-- The provider-candidate fields consulted by the selection loop of
`anilistHandler.searchAndFetchMetadata` (anilistHandler.ts). -/
structure AniListMedia where
  title : String
  episodes : Option Nat
  status : String
deriving DecidableEq

/-- `isReleased` (anilistHandler.ts, lines 107–117); `toUpperCase` is the
ASCII character-wise upper-casing. -/
def isReleased (m : AniListMedia) : Bool :=
  let s := String.mk (m.status.data.map Char.toUpper)
  !(s == "NOT_YET_RELEASED" || s == "CANCELLED" || s == "HIATUS")

/-- The episode-count test of the main selection loop: skipped entirely when
the folder episode count is undefined, otherwise requires a known count ≥ it. -/
def countOk (m : AniListMedia) : Option Nat → Bool
  | none => true
  | some c =>
    match m.episodes with
    | none => false
    | some e => decide (c ≤ e)

/-- Candidate selection of `searchAndFetchMetadata` (anilistHandler.ts,
lines 435–508): first loop accepts the first released candidate passing the
episode-count test; when none is found and a folder count was given, the
fallback loop accepts the first candidate — of the unfiltered list — whose
episode count is unknown.  Episode fetching and retries are downstream I/O. -/
def selectCandidate (results : List AniListMedia) (folderEpisodeCount : Option Nat) :
    Option AniListMedia :=
  match results.find? (fun m => isReleased m && countOk m folderEpisodeCount) with
  | some m => some m
  | none =>
    match folderEpisodeCount with
    | some _ => results.find? (fun m => m.episodes.isNone)
    | none => none

/-- Modelled from the claim's wording: the release-status filter applies to
both passes, so the unknown-count fallback also searches only the remainder. -/
def selectCandidateClaimC2 (results : List AniListMedia) (c : Nat) : Option AniListMedia :=
  let rem := results.filter isReleased
  match rem.find? (fun m => countOk m (some c)) with
  | some m => some m
  | none => rem.find? (fun m => m.episodes.isNone)

/-- The amended selection rule: status filter for the primary acceptance,
unknown-count fallback over the full candidate list. -/
def selectCandidateAmendedC2 (results : List AniListMedia) (c : Nat) : Option AniListMedia :=
  match (results.filter isReleased).find? (fun m => countOk m (some c)) with
  | some m => some m
  | none => results.find? (fun m => m.episodes.isNone)

/-- `canonicalEpisodeCount` (main.ts, lines 478–484): files whose episode
number is an integer (`Number.isInteger`); decimal specials are excluded. -/
def canonicalEpisodeCount (files : List VideoFile) : Nat :=
  (files.filter (fun f => f.episodeNumber.isInt)).length

/-- `\s*\(season\s*\d+\)` tried at a position (the strip pattern of
`normalizeForComparison`, main.ts lines 415–421); returns the remainder. -/
def seasonParenAt (l : List Char) : Option (List Char) :=
  match l.dropWhile isSpaceC with
  | '(' :: r1 =>
    match dropCI "season" r1 with
    | some r2 =>
      let r3 := r2.dropWhile isSpaceC
      let d := r3.span Char.isDigit
      if d.1.isEmpty then none else
      match d.2 with
      | ')' :: r4 => some r4
      | _ => none
    | none => none
  | _ => none

/-- Character class kept by `replace(/[^a-z0-9\s]/g, '')`. -/
def keepNormC (c : Char) : Bool := ('a' ≤ c && c ≤ 'z') || c.isDigit || isSpaceC c

/-- `normalizeForComparison` (main.ts, lines 415–421). -/
def normalizeForComparison (l : List Char) : List Char :=
  trimC (collapseWs ((replGlobal seasonParenAt [] l.length l).filter keepNormC))

/-- The `toLowerCase().trim()` applied to both titles before normalization. -/
def lowerTrim (s : String) : List Char := trimC (s.data.map Char.toLower)

def startsWithC : List Char → List Char → Bool
  | [], _ => true
  | _ :: _, [] => false
  | n :: ns, h :: hs => n = h && startsWithC ns hs

/-- JS `hay.includes(needle)`: contiguous substring test. -/
def containsSub (hay needle : List Char) : Bool :=
  match hay with
  | [] => needle.isEmpty
  | _ :: t => startsWithC needle hay || containsSub t needle

/-- `titlesMatch` (main.ts, lines 428–432): exact normalized equality, or —
when the unit's normalized name has length ≥ 5 — substring containment
either way round. -/
def titlesMatchFn (cachedTitle seriesName : String) : Bool :=
  let nc := normalizeForComparison (lowerTrim cachedTitle)
  let ns := normalizeForComparison (lowerTrim seriesName)
  nc == ns || (decide (5 ≤ ns.length) && (containsSub nc ns || containsSub ns nc))

/-- `\(Season\s*\d+\)` (case-insensitive) holds at a position. -/
def seasonParenTestAt (l : List Char) : Bool :=
  match l with
  | '(' :: r1 =>
    match dropCI "season" r1 with
    | some r2 =>
      let r3 := r2.dropWhile isSpaceC
      let d := r3.span Char.isDigit
      (!d.1.isEmpty) &&
      (match d.2 with
       | ')' :: _ => true
       | _ => false)
    | none => false
  | _ => false

def scanListB (f : List Char → Bool) : List Char → Bool
  | [] => false
  | c :: r => f (c :: r) || scanListB f r

/-- `/\(Season\s*\d+\)/i.test(title)` (cache-hit and fetched branches). -/
def hasSeasonParen (title : String) : Bool := scanListB seasonParenTestAt title.data

/-- `Season\s*\d+` (case-insensitive) holds at a position. -/
def seasonWordTestAt (l : List Char) : Bool :=
  match dropCI "season" l with
  | some r1 => !((r1.dropWhile isSpaceC).span Char.isDigit).1.isEmpty
  | none => false

/-- `/Season\s*\d+/i.test(title)` (local-record branch). -/
def hasSeasonWord (title : String) : Bool := scanListB seasonWordTestAt title.data

/-- The `finalTitle` computation of the cache-hit and fetched branches
(main.ts, lines 444–451 and 642–650). -/
def finalTitleParen (title : String) : Option Nat → String
  | some n => if hasSeasonParen title then title else title ++ " (Season " ++ toString n ++ ")"
  | none => title

/-- The `localTitle` computation of the local branch (main.ts, lines 693–700). -/
def finalTitleWord (title : String) : Option Nat → String
  | some n => if hasSeasonWord title then title else title ++ " (Season " ++ toString n ++ ")"
  | none => title

/-- One provider or synthesized episode entry of a persisted record. -/
structure EpisodeMeta where
  episodeNumber : ℚ
  seasonNumber : Option Nat
  title : String
  description : Option String
  airDate : Option String
  thumbnail : Option String
  thumbnailLocal : Option String
deriving DecidableEq

/-- One `fileEpisodes` entry (main.ts, lines 458–466 and alike). -/
structure FileEpisode where
  episodeNumber : ℚ
  seasonNumber : Option Nat
  filePath : List String
  subtitlePath : Option (List String)
  subtitlePaths : List (List String)
  filename : String
  title : String
deriving DecidableEq

def toFileEpisode (f : VideoFile) : FileEpisode :=
  ⟨f.episodeNumber, f.seasonNumber, f.filePath, f.subtitlePath, f.subtitlePaths,
   f.filename, f.title⟩

/-- A persisted metadata-store record (the fields of main.ts's store entries). -/
structure SeriesRecord where
  seriesId : String
  title : String
  description : String
  genres : List String
  poster : Option String
  posterLocal : Option String
  banner : Option String
  bannerLocal : Option String
  episodes : List EpisodeMeta
  fileEpisodes : List FileEpisode
  folderPath : List String
  type : MediaKind
  source : String
deriving DecidableEq

/-- `existing?.title && existing?.posterLocal` (JS truthiness, main.ts line 408). -/
def hasTitleAndPoster (r : SeriesRecord) : Bool :=
  (!(r.title == "")) &&
  (match r.posterLocal with
   | some p => !(p == "")
   | none => false)

/-- The cache-validity decision: existing record usable and titles match. -/
def usesCache (ex : SeriesRecord) (m : ScannedMedia) : Bool :=
  hasTitleAndPoster ex && titlesMatchFn ex.title m.name

/-- Cache-hit merge (main.ts, lines 441–471): spread of the existing record
with `seriesId`, `title`, `fileEpisodes`, `folderPath` and `type` overwritten. -/
def cacheHitMerge (ex : SeriesRecord) (m : ScannedMedia) : SeriesRecord :=
  { ex with
    seriesId := m.id
    title := finalTitleParen ex.title m.seasonNumber
    fileEpisodes := m.files.map toFileEpisode
    folderPath := m.folderPath
    type := m.type }

/-- Fetched-metadata merge (main.ts, lines 652–670).  The fetched record `f`
already carries the provider fields with locally cached image paths; image
caching and thumbnail generation are I/O and are abstracted into the oracle
that produces `f`. -/
def fetchMerge (f : SeriesRecord) (m : ScannedMedia) : SeriesRecord :=
  { f with
    seriesId := m.id
    title := finalTitleParen f.title m.seasonNumber
    fileEpisodes := m.files.map toFileEpisode
    folderPath := m.folderPath
    type := m.type }

/-- One local episode entry of the no-provider branch (main.ts, lines 679–691);
thumbnail generation is I/O and modelled as absent. -/
def localEpisodeOf (f : VideoFile) : EpisodeMeta :=
  ⟨f.episodeNumber, f.seasonNumber,
   if f.title == "" then "Episode " ++ toString f.episodeNumber else f.title,
   none, none, none, none⟩

/-- The local-only record of the no-provider branch (main.ts, lines 702–724). -/
def localRecord (m : ScannedMedia) : SeriesRecord :=
  { seriesId := m.id
    title := finalTitleWord m.name m.seasonNumber
    description := ""
    genres := []
    poster := none
    posterLocal := none
    banner := none
    bannerLocal := none
    episodes := m.files.map localEpisodeOf
    fileEpisodes := m.files.map toFileEpisode
    folderPath := m.folderPath
    type := m.type
    source := "local" }

/-- The persisted metadata store, keyed by series id. -/
abbrev MetaStore := String → Option SeriesRecord

/-- Cache-miss path: provider fetch result or the local-only record. -/
def fetchPathRecord (oracle : ScannedMedia → Option SeriesRecord) (m : ScannedMedia) :
    SeriesRecord :=
  match oracle m with
  | some f => fetchMerge f m
  | none => localRecord m

/-- The per-unit body of the scan-and-fetch loop (main.ts, lines 391–729):
cache check against the pre-scan store, then fetch or local fallback.
Whichever non-cache path is taken overwrites the unit's store entry. -/
def processMedia (existing : MetaStore) (oracle : ScannedMedia → Option SeriesRecord)
    (m : ScannedMedia) : SeriesRecord :=
  match existing m.id with
  | some ex => if usesCache ex m then cacheHitMerge ex m else fetchPathRecord oracle m
  | none => fetchPathRecord oracle m

def updStore (s : MetaStore) (k : String) (v : SeriesRecord) : MetaStore :=
  fun k2 => if k2 = k then some v else s k2

/-- `newMetadata` after the loop: one entry per scanned unit with files,
later units with the same id overwriting earlier ones. -/
def newMetadataStore (existing : MetaStore) (oracle : ScannedMedia → Option SeriesRecord)
    (media : List ScannedMedia) : MetaStore :=
  media.foldl
    (fun acc m => if m.files.isEmpty then acc else updStore acc m.id (processMedia existing oracle m))
    (fun _ => none)

/-- `mergedMetadata` (main.ts, lines 731–738): existing entries overridden by
this scan's entries. -/
def mergedStore (existing : MetaStore) (oracle : ScannedMedia → Option SeriesRecord)
    (media : List ScannedMedia) : MetaStore :=
  fun k =>
    match newMetadataStore existing oracle media k with
    | some r => some r
    | none => existing k

/-- `cleanedMetadata`, the store actually saved (main.ts, lines 740–755):
entries whose `fileEpisodes` list is empty are removed. -/
def scanAndFetchStore (existing : MetaStore) (oracle : ScannedMedia → Option SeriesRecord)
    (media : List ScannedMedia) : MetaStore :=
  fun k =>
    match mergedStore existing oracle media k with
    | some r => if 0 < r.fileEpisodes.length then some r else none
    | none => none

inductive EntryKind
  | file
  | dir
  | other
deriving DecidableEq

/-- The filesystem oracle: `readdir` and the `isFile`/`isDirectory` outcome of
`stat`, each of which can fail (modelling thrown `fs` errors). -/
structure Fs where
  readdir : List String → Except String (List String)
  statKind : List String → Except String EntryKind

def videoExtensions : List String :=
  [".mp4", ".mkv", ".avi", ".mov", ".wmv", ".flv", ".webm", ".m4v"]

def subtitleExtensions : List String := [".srt", ".vtt", ".ass", ".ssa"]

def isVideoFileName (s : String) : Bool :=
  videoExtensions.contains (String.mk ((extChars s.data).map Char.toLower))

def isSubtitleFileName (s : String) : Bool :=
  subtitleExtensions.contains (String.mk ((extChars s.data).map Char.toLower))

def baseStr (s : String) : String := String.mk (baseChars s.data)

/-- Subtitle map update: push the path onto the entry of the base name. -/
def subsInsert : List (String × List (List String)) → String → List String →
    List (String × List (List String))
  | [], k, v => [(k, [v])]
  | (k2, vs) :: rest, k, v =>
    if k2 = k then (k2, vs ++ [v]) :: rest else (k2, vs) :: subsInsert rest k v

def subsLookup : List (String × List (List String)) → String → List (List String)
  | [], _ => []
  | (k2, vs) :: rest, k => if k2 = k then vs else subsLookup rest k

/-- Deduplicate by absolute path keeping the first occurrence
(folderHandler.ts, lines 340–349). -/
def dedupByPath (seen : List (List String)) : List VideoFile → List VideoFile
  | [] => []
  | v :: r =>
    if seen.contains v.filePath then dedupByPath seen r
    else v :: dedupByPath (v.filePath :: seen) r

/-- `scanFolderForVideos` (folderHandler.ts, lines 284–357).  Entries that
cannot be stat-ed are skipped; a `readdir` failure yields the empty result
(the function catches its own errors). -/
def scanFolderForVideos (fs : Fs) (folderPath : List String) (folderSeason : Option Nat) :
    List VideoFile :=
  let folderName := (folderPath.getLast?).getD ""
  let seasonFromFolder :=
    match folderSeason with
    | some s => some s
    | none => extractSeasonNumber folderName
  match fs.readdir folderPath with
  | .error _ => []
  | .ok entries =>
    let acc := entries.foldl
      (fun (acc : List VideoFile × List (String × List (List String))) entry =>
        let fullPath := folderPath ++ [entry]
        match fs.statKind fullPath with
        | .error _ => acc
        | .ok EntryKind.file =>
          if isVideoFileName entry then
            let se := extractSeasonAndEpisode entry
            (acc.1 ++ [{ filename := entry, filePath := fullPath, title := baseStr entry,
                         episodeNumber := se.2,
                         seasonNumber := match se.1 with
                           | some s => some s
                           | none => seasonFromFolder,
                         subtitlePath := none, subtitlePaths := [],
                         parentFolder := folderName }], acc.2)
          else if isSubtitleFileName entry then
            (acc.1, subsInsert acc.2 (baseStr entry) fullPath)
          else acc
        | .ok _ => acc)
      ([], [])
    let withSubs := acc.1.map (fun v =>
      match subsLookup acc.2 (baseStr v.filename) with
      | [] => v
      | s :: rest => { v with subtitlePath := some s, subtitlePaths := s :: rest })
    dedupByPath [] withSubs

/-- The episode comparator (season ascending with `null` as 0, then episode
ascending), as a stable-sort order. -/
def fileLe (a b : VideoFile) : Bool :=
  let sa := a.seasonNumber.getD 0
  let sb := b.seasonNumber.getD 0
  decide (sa < sb) || (sa == sb && decide (a.episodeNumber ≤ b.episodeNumber))

def movieIdOf (title : String) : String :=
  String.mk (title.data.map (fun c => if c.isAlphanum then c.toLower else '_'))

/-- `\s*\[.*?\]\s*` tried at a position: the lazy group stops at the first `]`. -/
def bracketLazyAt (l : List Char) : Option (List Char) :=
  match l.dropWhile isSpaceC with
  | '[' :: r1 =>
    let sp := r1.span (fun c => !(c = ']'))
    (match sp.2 with
     | ']' :: r2 => some (r2.dropWhile isSpaceC)
     | _ => none)
  | _ => none

/-- `\.\d{4}\.` tried at a position: a dot, exactly four digits, a dot. -/
def dotYearAt (l : List Char) : Option (List Char) :=
  match l with
  | '.' :: r =>
    let d := r.span Char.isDigit
    if d.1.length = 4 then
      match d.2 with
      | '.' :: rest => some rest
      | _ => none
    else none
  | _ => none

/-- `cleanMovieTitle` (folderHandler.ts, lines 271–282). -/
def cleanMovieTitle (filename : String) : String :=
  let b := baseChars filename.data
  let s1 := replGlobal parenAt [] b.length b
  let s2 := replGlobal bracketLazyAt [] s1.length s1
  let s3 := replGlobal dotYearAt [' '] s2.length s2
  let s4 := s3.map (fun c => if c = '.' then ' ' else c)
  let s5 := s4.map (fun c => if c = '_' then ' ' else c)
  String.mk (trimC (collapseWs s5))

/-- Per-entry body of `scanDirectory`'s loop (folderHandler.ts, lines 367–508).
The whole body sits in a per-entry try/catch, so any failing filesystem call
inside it makes the entry contribute nothing instead of aborting the scan. -/
def processEntry (fs : Fs) (root : List String) (entry : String) : List ScannedMedia :=
  let entryPath := root ++ [entry]
  match fs.statKind entryPath with
  | .error _ => []
  | .ok EntryKind.dir =>
    let subVideos := scanFolderForVideos fs entryPath none
    (match fs.readdir entryPath with
     | .error _ => []
     | .ok subEntries =>
       let subDirs := subEntries.filter (fun se =>
         match fs.statKind (entryPath ++ [se]) with
         | .ok EntryKind.dir => true
         | _ => false)
       if !subDirs.isEmpty && subVideos.isEmpty then
         (subDirs.foldl (fun acc subDir =>
           let seriesPath := entryPath ++ [subDir]
           let seasonFromFolder := extractSeasonNumber subDir
           let partFromFolder := extractPartNumber subDir
           let videos := scanFolderForVideos fs seriesPath seasonFromFolder
           if videos.isEmpty then acc else
           let seriesName := extractSeriesNameFromFilenames videos
           acc ++ [{ id := generateSeriesId seriesName subDir seasonFromFolder partFromFolder,
                     name := seriesName, type := MediaKind.series, folderPath := seriesPath,
                     files := stableSortBy fileLe videos,
                     seasonNumber := seasonFromFolder, partNumber := partFromFolder }]) [])
         ++
         (if !subVideos.isEmpty then
            subVideos.foldl (fun acc video =>
              let movieTitle := cleanMovieTitle video.filename
              acc ++ [{ id := "movie_" ++ movieIdOf movieTitle, name := movieTitle,
                        type := MediaKind.movie, folderPath := entryPath, files := [video],
                        seasonNumber := none, partNumber := none }]) []
          else [])
       else if !subVideos.isEmpty then
         let seriesName := extractSeriesNameFromFilenames subVideos
         let seasonFromFolder := extractSeasonNumber entry
         let partFromFolder := extractPartNumber entry
         [{ id := generateSeriesId seriesName entry seasonFromFolder partFromFolder,
            name := seriesName, type := MediaKind.series, folderPath := entryPath,
            files := stableSortBy fileLe subVideos,
            seasonNumber := seasonFromFolder, partNumber := partFromFolder }]
       else [])
  | .ok EntryKind.file =>
    if isVideoFileName entry then
      let movieTitle := cleanMovieTitle entry
      let se := extractSeasonAndEpisode entry
      [{ id := "movie_" ++ movieIdOf movieTitle, name := movieTitle, type := MediaKind.movie,
         folderPath := root,
         files := [{ filename := entry, filePath := entryPath, title := baseStr entry,
                     episodeNumber := se.2, seasonNumber := none,
                     subtitlePath := none, subtitlePaths := [],
                     parentFolder := (root.getLast?).getD "" }],
         seasonNumber := none, partNumber := none }]
    else []
  | .ok EntryKind.other => []

/-- `scanDirectory` (folderHandler.ts, lines 359–516): only a failure to read
the root path escapes (and is rethrown by the outer catch). -/
def scanDirectory (fs : Fs) (root : List String) : Except String (List ScannedMedia) :=
  match fs.readdir root with
  | .error e => .error e
  | .ok entries => .ok (entries.foldl (fun acc e => acc ++ processEntry fs root e) [])

/-- `scanMultipleFolders` (folderHandler.ts, lines 527–540): each root is
scanned inside a try/catch, a failing root is skipped. -/
def scanMultipleFolders (fs : Fs) (folderPaths : List (List String)) : List ScannedMedia :=
  folderPaths.foldl
    (fun acc p =>
      match scanDirectory fs p with
      | .ok results => acc ++ results
      | .error _ => acc)
    []


/-! Concrete inputs used by witnesses and counterexamples. -/

/-- A cancelled candidate with unknown episode count. -/
def badCand : AniListMedia := ⟨"Bad", none, "CANCELLED"⟩

def vf86 : VideoFile :=
  ⟨"86 - 01.mkv", ["lib", "86", "86 - 01.mkv"], "86 - 01", 1, some 1, none, [], "86"⟩

/-- A cached record titled "86" with a locally cached poster. -/
def rec86 : SeriesRecord :=
  ⟨"86_s01", "86", "post-apocalyptic mecha", ["Action"], some "http://p", some "cache/p.jpg",
   none, none, [], [toFileEpisode vf86], ["lib", "86"], MediaKind.series, "mal"⟩

def m86 : ScannedMedia := ⟨"86_s01", "86", MediaKind.series, ["lib", "86"], [vf86], some 1, none⟩

def store86 : MetaStore := fun k => if k = "86_s01" then some rec86 else none

def vfC4 : VideoFile :=
  ⟨"My Show Episode 01.mkv", ["lib2", "My Show", "My Show Episode 01.mkv"], "My Show Episode 01",
   1, some 2, none, [], "My Show"⟩

/-- A cached record titled "My Show" (no season marker) with a cached poster. -/
def recC4 : SeriesRecord :=
  ⟨"my_show_s02", "My Show", "d", ["Action"], some "http://p", some "cache/p.jpg",
   some "http://b", some "cache/b.jpg", [], [], ["lib", "My Show"], MediaKind.series, "anilist"⟩

/-- A scanned unit named "My Show" carrying season 2. -/
def mC4 : ScannedMedia :=
  ⟨"my_show_s02", "My Show", MediaKind.series, ["lib2", "My Show"], [vfC4], some 2, none⟩

/-- The same unit without a season number. -/
def mC4n : ScannedMedia :=
  ⟨"my_show_s02", "My Show", MediaKind.series, ["lib2", "My Show"], [vfC4], none, none⟩

def feW : FileEpisode := ⟨1, none, ["lib", "w", "w1.mkv"], none, [], "w1.mkv", "w1"⟩

/-- A pre-existing record with one file episode. -/
def recW : SeriesRecord :=
  ⟨"a", "T", "", [], none, some "cache/t.jpg", none, none, [], [feW], ["lib", "w"],
   MediaKind.series, "mal"⟩

def storeW : MetaStore := fun k => if k = "a" then some recW else none

def noOracleW : ScannedMedia → Option SeriesRecord := fun _ => none

/-- A filesystem whose root lists one entry that cannot be stat-ed. -/
def fsW : Fs :=
  { readdir := fun p => if p = ["root"] then .ok ["A"] else .error "ENOENT"
    statKind := fun _ => .error "EACCES" }

/-- A filesystem on which every call fails. -/
def fsW2 : Fs :=
  { readdir := fun _ => .error "EIO"
    statKind := fun _ => .error "EIO" }

/-! Helper lemmas. -/

theorem foldl_append_join {α β : Type} (f : α → List β) (l : List α) (acc : List β) :
    l.foldl (fun a x => a ++ f x) acc = acc ++ (l.map f).flatten := by
  induction l generalizing acc with
  | nil => simp
  | cons h t ih => simp [List.foldl_cons, ih, List.append_assoc]

theorem find?_filter_eq {α : Type} (p q : α → Bool) (l : List α) :
    (l.filter p).find? q = l.find? (fun a => p a && q a) := by
  induction l with
  | nil => rfl
  | cons h t ih =>
    by_cases hp : p h
    · by_cases hq : q h
      · simp [List.filter_cons, List.find?, hp, hq]
      · simp [List.filter_cons, List.find?, hp, hq, ih]
    · simp [List.filter_cons, List.find?, hp, ih]

theorem getLast?_mem_of_ne_nil {α : Type} (l : List α) (h : l ≠ []) :
    ∃ m, l.getLast? = some m ∧ m ∈ l := by
  induction l with
  | nil => exact absurd rfl h
  | cons a t ih =>
    cases t with
    | nil => exact ⟨a, rfl, List.mem_singleton.mpr rfl⟩
    | cons b t2 =>
      obtain ⟨m, hm, hmem⟩ := ih (by simp)
      exact ⟨m, by rw [List.getLast?_cons_cons]; exact hm, List.mem_cons_of_mem a hmem⟩

/-! Claim theorems. -/

/-- C1.  After a scan-and-fetch pass, every record in the persisted store has
a non-empty `fileEpisodes` list, and any record — newly built or pre-existing —
whose final `fileEpisodes` list is empty is excluded before saving. -/
theorem c1_persisted_records_have_file_episodes :
    (∀ (existing : MetaStore) (oracle : ScannedMedia → Option SeriesRecord)
        (media : List ScannedMedia) (k : String) (r : SeriesRecord),
        scanAndFetchStore existing oracle media k = some r → 1 ≤ r.fileEpisodes.length) ∧
    (∀ (existing : MetaStore) (oracle : ScannedMedia → Option SeriesRecord)
        (media : List ScannedMedia) (k : String) (r : SeriesRecord),
        mergedStore existing oracle media k = some r → r.fileEpisodes = [] →
        scanAndFetchStore existing oracle media k = none) := by
  constructor
  · intro existing oracle media k r h
    simp only [scanAndFetchStore] at h
    cases hm : mergedStore existing oracle media k with
    | none => rw [hm] at h; exact absurd h (by simp)
    | some r2 =>
      rw [hm] at h
      by_cases h2 : 0 < r2.fileEpisodes.length
      · simp only [h2, if_true] at h
        cases h
        omega
      · simp [h2] at h
  · intro existing oracle media k r hm he
    simp only [scanAndFetchStore, hm, he]
    simp

/-- C1 witness: a concrete store entry with one file episode survives the
cleanup and indeed has a non-empty file-episode list. -/
theorem c1_witness :
    scanAndFetchStore storeW noOracleW [] "a" = some recW ∧ 1 ≤ recW.fileEpisodes.length :=
  ⟨by decide, c1_persisted_records_have_file_episodes.1 storeW noOracleW [] "a" recW (by decide)⟩

/-- C2 counterexample: a cancelled candidate with unknown episode count is
accepted by the source's fallback pass, while the claim's rule — release-status
filtering applied to every candidate — rejects it and yields no match. -/
theorem c2_counterexample :
    isReleased badCand = false ∧
    selectCandidate [badCand] (some 1) = some badCand ∧
    selectCandidateClaimC2 [badCand] 1 = none := by decide

/-- C2 (amended).  With a defined canonical episode count, the selection
rejects candidates with status not-yet-released/cancelled/hiatus for the
primary acceptance and takes the first remaining candidate with a known
episode count ≥ the canonical count; when none qualifies, the fallback takes
the first candidate of the *unfiltered* list with an unknown episode count;
otherwise there is no match.  The canonical count itself counts exactly the
files with integer episode numbers. -/
theorem c2_candidate_selection :
    (∀ (results : List AniListMedia) (c : Nat),
        selectCandidate results (some c) = selectCandidateAmendedC2 results c) ∧
    (∀ files : List VideoFile,
        canonicalEpisodeCount files =
          (files.filter (fun f => f.episodeNumber.den == 1)).length) := by
  constructor
  · intro results c
    simp only [selectCandidate, selectCandidateAmendedC2, find?_filter_eq]
  · intro files
    rfl

/-- C8.  For a series name of length ≥ 2 the identifier ignores the folder
name; with both part and season present the part suffix is appended and the
season suffix is not. -/
theorem c8_identifier_stability :
    (∀ (name f1 f2 : String) (season part : Option Nat), 2 ≤ name.length →
        generateSeriesId name f1 season part = generateSeriesId name f2 season part) ∧
    (∀ (name folder : String) (s p : Nat),
        generateSeriesId name folder (some s) (some p) =
          generateBaseId name folder ++ "_part" ++ pad2 p ∧
        generateSeriesId name folder (some s) (some p) =
          generateSeriesId name folder none (some p)) ∧
    generateSeriesId "Show" "Show Season 2" (some 2) none =
      generateSeriesId "Show" "Show (different folder label)" (some 2) none := by
  refine ⟨?_, ?_, by decide⟩
  · intro name f1 f2 season part h
    simp [generateSeriesId, generateBaseId, h]
  · intro name folder s p
    exact ⟨rfl, rfl⟩

/-- C8 witness: the folder-independence part applied at a concrete name. -/
theorem c8_witness :
    generateSeriesId "Show" "folder one" (some 3) none =
      generateSeriesId "Show" "folder two" (some 3) none :=
  c8_identifier_stability.1 "Show" "folder one" "folder two" (some 3) none (by decide)

/-- C5 counterexample: "ShowS01E02.mkv" matches `S(\d+)E(\d+)` (as the claim
reads it, anywhere in the filename) with captures (1, 2), yet the tokenizer
returns season `none`, episode 2 — the source pattern requires word
boundaries, which fail after the 'w' of "Show". -/
theorem c5_counterexample :
    plainFindSE ("ShowS01E02.mkv").data = some (1, 2) ∧
    extractSeasonAndEpisode "ShowS01E02.mkv" = (none, (2 : ℚ)) ∧
    ¬ extractSeasonAndEpisode "ShowS01E02.mkv" = (some 1, (2 : ℚ)) := by
  refine ⟨by decide, by decide, ?_⟩
  intro h
  have h2 : extractSeasonAndEpisode "ShowS01E02.mkv" = (none, (2 : ℚ)) := by decide
  rw [h2] at h
  simp at h

/-- C5 (amended).  For every filename whose extension-stripped base name
matches `\bS(\d+)E(\d+)\b` (case-insensitively, word boundaries as in the
source), the tokenizer returns exactly the first match's season and episode,
regardless of any other digit substrings: the pattern has first precedence. -/
theorem c5_se_pattern_precedence (filename : String) (s e : Nat)
    (h : findSE (baseChars filename.data) = some (s, e)) :
    extractSeasonAndEpisode filename = (some s, (e : ℚ)) := by
  simp [extractSeasonAndEpisode, h]

/-- C5 witness: a name full of other digit substrings still tokenizes to the
S/E captures. -/
theorem c5_witness :
    extractSeasonAndEpisode "Show 99 S01E02 [1080p] 2020.mkv" = (some 1, ((2 : ℕ) : ℚ)) :=
  c5_se_pattern_precedence "Show 99 S01E02 [1080p] 2020.mkv" 1 2 (by decide)

/-- C6.  When no earlier pattern matches, the tokenizer's final fallback works
on the extension-stripped base name: all digit runs are collected, year-like
values (1900–2099) are discarded, the last remaining run is the episode, and
the default is 1; `tokenize("Show.Name.mp4")` yields episode 1, not 4; and a
year-like value is never the result when a non-year run is present. -/
theorem c6_digit_run_fallback :
    (∀ filename : String, noPatternMatch filename = true →
        extractSeasonAndEpisode filename =
          (none,
            (((((digitRunsC (baseChars filename.data)).map digitsVal).filter
              notYearB).getLast?.getD 1 : ℕ) : ℚ))) ∧
    extractSeasonAndEpisode "Show.Name.mp4" = (none, (1 : ℚ)) ∧
    (∀ filename : String, noPatternMatch filename = true →
        (((digitRunsC (baseChars filename.data)).map digitsVal).filter notYearB) ≠ [] →
        ∃ n : ℕ, extractSeasonAndEpisode filename = (none, (n : ℚ)) ∧
          (n < 1900 ∨ 2099 < n)) := by
  have key : ∀ filename : String, noPatternMatch filename = true →
      extractSeasonAndEpisode filename =
        (none,
          (((((digitRunsC (baseChars filename.data)).map digitsVal).filter
            notYearB).getLast?.getD 1 : ℕ) : ℚ)) := by
    intro filename h
    simp only [noPatternMatch, Bool.and_eq_true, Option.isNone_iff_eq_none] at h
    obtain ⟨⟨h1, h2⟩, h3⟩ := h
    simp only [extractSeasonAndEpisode, h1, h2, h3, fallbackEpisode]
    cases hL : (((digitRunsC (baseChars filename.data)).map digitsVal).filter
        notYearB).getLast? <;> simp [hL]
  refine ⟨key, by decide, ?_⟩
  intro filename h hne
  obtain ⟨m, hm, hmem⟩ :=
    getLast?_mem_of_ne_nil
      (((digitRunsC (baseChars filename.data)).map digitsVal).filter notYearB) hne
  refine ⟨m, ?_, ?_⟩
  · rw [key filename h, hm]
    rfl
  · have := List.of_mem_filter hmem
    simp only [notYearB, Bool.or_eq_true, decide_eq_true_iff] at this
    exact this

/-- C6 witness: a name where no pattern matches, with digit runs
[1999, 2000, 25, 7]; the years are discarded and the last non-year run, 7,
is the episode. -/
theorem c6_witness :
    noPatternMatch "1999.2000.25x7.mkv" = true ∧
    extractSeasonAndEpisode "1999.2000.25x7.mkv" = (none, ((7 : ℕ) : ℚ)) :=
  ⟨by decide, by
    have h := c6_digit_run_fallback.1 "1999.2000.25x7.mkv" (by decide)
    rw [h]
    decide⟩

/-- C7 counterexample: the raw filename "Episode 6.5" contains the
`Episode N.D` marker (and no `S..E..` marker), but the tokenizer strips
".5" as an extension first and yields episode 6, not 6.5. -/
theorem c7_counterexample :
    scanListO epDecAt ("Episode 6.5").data = some (6, 5) ∧
    plainFindSE ("Episode 6.5").data = none ∧
    extractSeasonAndEpisode "Episode 6.5" = (none, (6 : ℚ)) ∧
    ¬ extractSeasonAndEpisode "Episode 6.5" = (none, (6 : ℚ) + (5 : ℚ) / 10) := by
  refine ⟨by decide, by decide, by decide, ?_⟩
  intro h
  have h2 : extractSeasonAndEpisode "Episode 6.5" = (none, (6 : ℚ)) := by decide
  rw [h2] at h
  have h3 : (6 : ℚ) = 6 + 5 / 10 := congrArg Prod.snd h
  norm_num at h3

/-- C7 (amended).  For every filename whose extension-stripped base name
contains an `Episode N.D` marker and no word-bounded `S..E..` marker, the
tokenizer returns the rational `N + D/10` for the first such marker with
season `none`; in particular "Episode 6.5.mkv" yields 6.5. -/
theorem c7_decimal_episode :
    (∀ (filename : String) (w d : Nat),
        findSE (baseChars filename.data) = none →
        scanListO epDecAt (baseChars filename.data) = some (w, d) →
        extractSeasonAndEpisode filename = (none, (w : ℚ) + (d : ℚ) / 10)) ∧
    extractSeasonAndEpisode "Episode 6.5.mkv" = (none, (13 : ℚ) / 2) := by
  constructor
  · intro filename w d h1 h2
    simp [extractSeasonAndEpisode, h1, h2]
  · rw [show extractSeasonAndEpisode "Episode 6.5.mkv" =
        (none, ((6 : ℕ) : ℚ) + ((5 : ℕ) : ℚ) / 10) from rfl]
    norm_num

/-- C7 witness: the general statement applied at "Episode 6.5.mkv". -/
theorem c7_witness :
    extractSeasonAndEpisode "Episode 6.5.mkv" = (none, ((6 : ℕ) : ℚ) + ((5 : ℕ) : ℚ) / 10) :=
  c7_decimal_episode.1 "Episode 6.5.mkv" 6 5 (by decide) (by decide)

/-- C3 counterexample: a unit whose normalized name is "86" (length 2 < 3)
with a cached record titled "86" is accepted as a cache hit — exact normalized
equality wins regardless of length, so short names do not always force a
re-fetch. -/
theorem c3_counterexample :
    (normalizeForComparison (lowerTrim "86")).length = 2 ∧
    usesCache rec86 m86 = true ∧
    processMedia store86 noOracleW m86 = cacheHitMerge rec86 m86 := by decide

/-- C3 (amended).  The cache-validity check accepts exactly when the normalized
strings are equal, or the unit's normalized name has length ≥ 5 and one
normalized string is a substring of the other; for a normalized name shorter
than 3 characters acceptance reduces to exact equality (substring matches are
never used).  The cached title "My Show (Season 2)" matches the unit name
"My Show". -/
theorem c3_cache_title_match :
    (∀ cached series : String,
        titlesMatchFn cached series = true ↔
          (normalizeForComparison (lowerTrim cached) = normalizeForComparison (lowerTrim series) ∨
           (5 ≤ (normalizeForComparison (lowerTrim series)).length ∧
            (containsSub (normalizeForComparison (lowerTrim cached))
                (normalizeForComparison (lowerTrim series)) = true ∨
             containsSub (normalizeForComparison (lowerTrim series))
                (normalizeForComparison (lowerTrim cached)) = true)))) ∧
    (∀ cached series : String,
        (normalizeForComparison (lowerTrim series)).length < 3 →
        (titlesMatchFn cached series = true ↔
          normalizeForComparison (lowerTrim cached) = normalizeForComparison (lowerTrim series))) ∧
    (∀ (ex : SeriesRecord) (m : ScannedMedia),
        usesCache ex m = (hasTitleAndPoster ex && titlesMatchFn ex.title m.name)) ∧
    titlesMatchFn "My Show (Season 2)" "My Show" = true := by
  have base : ∀ cached series : String,
      titlesMatchFn cached series = true ↔
        (normalizeForComparison (lowerTrim cached) = normalizeForComparison (lowerTrim series) ∨
         (5 ≤ (normalizeForComparison (lowerTrim series)).length ∧
          (containsSub (normalizeForComparison (lowerTrim cached))
              (normalizeForComparison (lowerTrim series)) = true ∨
           containsSub (normalizeForComparison (lowerTrim series))
              (normalizeForComparison (lowerTrim cached)) = true))) := by
    intro cached series
    simp [titlesMatchFn, Bool.or_eq_true, Bool.and_eq_true, decide_eq_true_iff, beq_iff_eq]
  refine ⟨base, ?_, fun ex m => rfl, by decide⟩
  intro cached series h
  rw [base cached series]
  constructor
  · rintro (he | ⟨h5, _⟩)
    · exact he
    · omega
  · intro he
    exact Or.inl he

/-- C3 witness: the short-name clause applied at a concrete pair with
different normalized names, forcing a re-fetch. -/
theorem c3_witness : titlesMatchFn "87" "86" = false := by
  cases hb : titlesMatchFn "87" "86" with
  | false => rfl
  | true => exact absurd ((c3_cache_title_match.2.1 "87" "86" (by decide)).mp hb) (by decide)

/-- C4 counterexample: a cache hit for a unit carrying season 2 rewrites the
cached title "My Show" to "My Show (Season 2)", so the title — a
provider-derived field — is not kept unchanged. -/
theorem c4_counterexample :
    usesCache recC4 mC4 = true ∧
    (cacheHitMerge recC4 mC4).title = "My Show (Season 2)" ∧
    ¬ (cacheHitMerge recC4 mC4).title = recC4.title := by decide

/-- C4 (amended).  On a cache hit the merged record keeps description, genres,
poster, banner (remote and local), provider episode list and source unchanged,
refreshes `fileEpisodes`, `folderPath` (and `seriesId`, `type`) from the scan,
and keeps the title except that a unit with a season number appends
" (Season N)" when the title has no such marker. -/
theorem c4_cache_hit_frame (ex : SeriesRecord) (m : ScannedMedia) :
    ((cacheHitMerge ex m).description = ex.description ∧
     (cacheHitMerge ex m).genres = ex.genres ∧
     (cacheHitMerge ex m).poster = ex.poster ∧
     (cacheHitMerge ex m).posterLocal = ex.posterLocal ∧
     (cacheHitMerge ex m).banner = ex.banner ∧
     (cacheHitMerge ex m).bannerLocal = ex.bannerLocal ∧
     (cacheHitMerge ex m).episodes = ex.episodes ∧
     (cacheHitMerge ex m).source = ex.source ∧
     (cacheHitMerge ex m).fileEpisodes = m.files.map toFileEpisode ∧
     (cacheHitMerge ex m).folderPath = m.folderPath ∧
     (cacheHitMerge ex m).seriesId = m.id ∧
     (cacheHitMerge ex m).type = m.type ∧
     (cacheHitMerge ex m).title = finalTitleParen ex.title m.seasonNumber) ∧
    ((m.seasonNumber = none → (cacheHitMerge ex m).title = ex.title) ∧
     (hasSeasonParen ex.title = true → (cacheHitMerge ex m).title = ex.title)) := by
  refine ⟨⟨rfl, rfl, rfl, rfl, rfl, rfl, rfl, rfl, rfl, rfl, rfl, rfl, rfl⟩, ?_, ?_⟩
  · intro h
    simp [cacheHitMerge, finalTitleParen, h]
  · intro h
    cases hs : m.seasonNumber with
    | none => simp [cacheHitMerge, finalTitleParen, hs]
    | some n => simp [cacheHitMerge, finalTitleParen, hs, h]

/-- C4 witness: with no season number on the unit, the cache-hit merge keeps
the cached title verbatim. -/
theorem c4_witness : (cacheHitMerge recC4 mC4n).title = recC4.title :=
  (c4_cache_hit_frame recC4 mC4n).2.1 rfl

/-- C9.  The directory scan fails exactly when the root cannot be enumerated:
a root `readdir` error is rethrown unchanged; with a readable root the result
is the concatenation of the per-entry results; and an entry that cannot be
stat-ed contributes nothing (it is skipped, the rest of the scan continues). -/
theorem c9_scan_error_containment :
    (∀ (fs : Fs) (root : List String) (e : String),
        fs.readdir root = .error e → scanDirectory fs root = .error e) ∧
    (∀ (fs : Fs) (root : List String) (entries : List String),
        fs.readdir root = .ok entries →
        scanDirectory fs root = .ok ((entries.map (processEntry fs root)).flatten)) ∧
    (∀ (fs : Fs) (root : List String) (entry err : String),
        fs.statKind (root ++ [entry]) = .error err → processEntry fs root entry = []) := by
  refine ⟨?_, ?_, ?_⟩
  · intro fs root e h
    simp [scanDirectory, h]
  · intro fs root entries h
    simp [scanDirectory, h, foldl_append_join]
  · intro fs root entry err h
    simp [processEntry, h]

/-- C9 witness: a root with one unreadable entry scans to the empty result
instead of failing. -/
theorem c9_witness :
    fsW.readdir ["root"] = .ok ["A"] ∧
    scanDirectory fsW ["root"] = .ok ((["A"].map (processEntry fsW ["root"])).flatten) ∧
    processEntry fsW ["root"] "A" = [] :=
  ⟨rfl, c9_scan_error_containment.2.1 fsW ["root"] ["A"] rfl,
   c9_scan_error_containment.2.2 fsW ["root"] "A" "EACCES" rfl⟩

/-- C10.  `scanMultipleFolders` never fails: it returns the concatenation, in
input order, of the results of the roots whose scans succeed, and a root whose
scan fails fatally is skipped without affecting the others. -/
theorem c10_multi_folder_concatenation :
    (∀ (fs : Fs) (paths : List (List String)),
        scanMultipleFolders fs paths =
          (paths.map (fun p =>
            match scanDirectory fs p with
            | .ok results => results
            | .error _ => [])).flatten) ∧
    (∀ (fs : Fs) (p : List String) (rest : List (List String)) (e : String),
        scanDirectory fs p = .error e →
        scanMultipleFolders fs (p :: rest) = scanMultipleFolders fs rest) := by
  constructor
  · intro fs paths
    have hg : ∀ (acc : List ScannedMedia) (p : List String),
        (match scanDirectory fs p with
         | .ok results => acc ++ results
         | .error _ => acc) =
          acc ++ (match scanDirectory fs p with
            | .ok results => results
            | .error _ => []) := by
      intro acc p
      cases scanDirectory fs p <;> simp
    calc scanMultipleFolders fs paths
        = paths.foldl (fun acc p =>
            acc ++ (match scanDirectory fs p with
              | .ok results => results
              | .error _ => [])) [] := by
          unfold scanMultipleFolders
          exact List.foldl_ext _ _ [] (fun acc p _ => hg acc p)
      _ = _ := by rw [foldl_append_join]; simp
  · intro fs p rest e h
    simp [scanMultipleFolders, h]

/-- C10 witness: a failing root is skipped, leaving the result of the
remaining (empty) list. -/
theorem c10_witness :
    scanDirectory fsW2 ["bad"] = Except.error "EIO" ∧
    scanMultipleFolders fsW2 [["bad"]] = scanMultipleFolders fsW2 [] :=
  ⟨rfl, c10_multi_folder_concatenation.2 fsW2 ["bad"] [] "EIO" rfl⟩
